import Mathlib

/-!
Verification of the wage normalization and reconciliation pipeline
(src/project/pipeline.py) against its natural-language specification.

The pipeline's tabular data is embedded shallowly:

* Text cells are lists of characters (abbreviated Str below), so that the
  Python and pandas string operations used by the pipeline (lower, upper,
  strip, split on the first dot, substring containment, replace) become
  executable structural functions the kernel can evaluate.
* A nullable cell is an Option: none models NaN / None / NaT.
* Wage numbers are rationals; pandas NaN wage cells and values that fail
  numeric coercion are modelled as none in an Option value.
* A pandas DataFrame column is a field of a per-row structure, and a
  DataFrame is the list of its rows; boolean-mask filters become
  List.filter, column assignments become List.map, and the groupby/agg
  step becomes an explicit grouping function.
-/

/-! ## Character-list string operations -/

/-- Text cell: a string as its list of characters. -/
abbrev Str := List Char

/-- Python str.lower / pandas Series.str.lower, character-wise. -/
def lowerStr (s : Str) : Str := s.map Char.toLower

/-- Python str.upper / pandas Series.str.upper, character-wise. -/
def upperStr (s : Str) : Str := s.map Char.toUpper

/-- Python str.strip / pandas Series.str.strip: drop whitespace from both
ends. -/
def trimStr (s : Str) : Str :=
  ((s.dropWhile Char.isWhitespace).reverse.dropWhile Char.isWhitespace).reverse

/-- Python str.replace of every space by an underscore, as used by the
column-name normalization (pipeline.py lines 65 and 121). -/
def replaceSpaces (s : Str) : Str := s.map (fun c => if c = ' ' then '_' else c)

/-- The prefix of a string before the first dot: pandas
str.split on a dot followed by str.get 0 (pipeline.py lines 84 and 129). -/
def beforeFirstDot (s : Str) : Str := s.takeWhile (fun c => c ≠ '.')

/-- Substring containment, the semantics of pandas Series.str.contains with
a literal (alternation-free branch) pattern. -/
def containsSub (s t : Str) : Bool := decide (t <:+: s)

/-! ## Wage unit converter

Embedding of standardize_wage (pipeline.py lines 91-102).  The source reads
the wage and the pay unit from the row; here they are the two arguments.
The unit cell may be null (pandas NaN), in which case the source substitutes
the empty string before comparing. -/

/-- Embeds standardize_wage, pipeline.py lines 91-102: lower-case the unit
cell (empty string when null) and branch on it; any unrecognized unit falls
through to the wage unchanged. -/
def standardize_wage (wage : ℚ) (unitCell : Option Str) : ℚ :=
  let u : Str := match unitCell with
    | some s => lowerStr s
    | none => []
  if u = "hour".data then wage * 2080
  else if u = "week".data then wage * 52
  else if u = "month".data then wage * 12
  else if u = "year".data then wage
  else wage

/-! ## Observation-side rows and the transform_h1b_data stages -/

/-- An input row of the observation-side dataset after column
normalization, holding the columns transform_h1b_data reads.  Nullable
cells are Options; the received_date cell holds the result of the
pandas to_datetime coercion (none models NaT), represented as an
abstract day number. -/
structure H1BRow where
  case_status : Option Str
  employer_name : Option Str
  received_date : Option Int
  soc_code : Option Str
  soc_title : Option Str
  wage_rate_of_pay_from : ℚ
  wage_unit_of_pay : Option Str
deriving DecidableEq

/-- The status predicate of pipeline.py line 69: strip, upper-case, compare
with CERTIFIED.  A null cell propagates through the pandas string methods
as NaN and the final equality with a string is false. -/
def statusKeep (v : Option Str) : Bool :=
  match v with
  | none => false
  | some s => decide (upperStr (trimStr s) = "CERTIFIED".data)

/-- The status filter stage, pipeline.py line 69. -/
def stage_status (rs : List H1BRow) : List H1BRow :=
  rs.filter (fun r => statusKeep r.case_status)

/-- The target employer names of pipeline.py line 73. -/
def target_companies : List Str :=
  ["microsoft".data, "google llc".data, "amazon web services".data]

/-- The employer predicate of pipeline.py line 74: a case-insensitive
regex-alternation containment test over the three target names, with
na=False sending a null cell to false. -/
def employerMatch (v : Option Str) : Bool :=
  match v with
  | none => false
  | some s => target_companies.any (fun t => containsSub (lowerStr s) t)

/-- The employer filter stage, pipeline.py line 74. -/
def stage_employer (rs : List H1BRow) : List H1BRow :=
  rs.filter (fun r => employerMatch r.employer_name)

/-- The date predicate of pipeline.py line 79: a NaT date (failed
to_datetime coercion) compares false on both bounds; otherwise the date
must fall in the inclusive window. -/
def dateKeep (lo hi : Int) (v : Option Int) : Bool :=
  match v with
  | none => false
  | some d => decide (lo ≤ d) && decide (d ≤ hi)

/-- The date filter stage, pipeline.py lines 78-79, parameterized by the
window bounds. -/
def stage_date (lo hi : Int) (rs : List H1BRow) : List H1BRow :=
  rs.filter (fun r => dateKeep lo hi r.received_date)

/-- Pandas astype(str) on a nullable text cell: a missing value is
rendered as the literal string nan, never as a null. -/
def astype_str (v : Option Str) : Str := v.getD "nan".data

/-- The code canonicalization of pipeline.py lines 84 and 129:
astype(str), split on the first dot keeping the prefix, strip. -/
def canonCode (v : Option Str) : Str := trimStr (beforeFirstDot (astype_str v))

/-- A row after the soc_code/soc_title rename and code canonicalization
(pipeline.py lines 83-84). -/
structure CodedRow where
  employer_name : Option Str
  job_code : Str
  occupation_title : Option Str
  wage_rate_of_pay_from : ℚ
  wage_unit_of_pay : Option Str
deriving DecidableEq

/-- The rename and code canonicalization step, pipeline.py lines 83-84. -/
def stage_codes (rs : List H1BRow) : List CodedRow :=
  rs.map (fun r =>
    { employer_name := r.employer_name
      job_code := canonCode r.soc_code
      occupation_title := r.soc_title
      wage_rate_of_pay_from := r.wage_rate_of_pay_from
      wage_unit_of_pay := r.wage_unit_of_pay })

/-- The dropna on the job_code column, pipeline.py line 87.  It runs after
astype(str), which leaves no null in the column, so pandas removes no row:
on the embedded column type the step is the identity. -/
def dropna_job_code (rs : List CodedRow) : List CodedRow := rs

/-- A row after annualization (pipeline.py line 104), restricted to the
columns the remaining steps read. -/
structure MidRow where
  employer_name : Option Str
  job_code : Str
  occupation_title : Option Str
  annual_wage : ℚ
deriving DecidableEq

/-- The annualization step, pipeline.py line 104: apply standardize_wage
row-wise. -/
def stage_wage (rs : List CodedRow) : List MidRow :=
  rs.map (fun r =>
    { employer_name := r.employer_name
      job_code := r.job_code
      occupation_title := r.occupation_title
      annual_wage := standardize_wage r.wage_rate_of_pay_from r.wage_unit_of_pay })

/-- The outlier predicate of pipeline.py line 107. -/
def outlierKeep (w : ℚ) : Bool := decide (20000 ≤ w) && decide (w ≤ 300000)

/-- The outlier filter stage, pipeline.py line 107. -/
def stage_outlier (rs : List MidRow) : List MidRow :=
  rs.filter (fun r => outlierKeep r.annual_wage)

/-! ## The groupby/mean aggregation, pipeline.py lines 111-113 -/

/-- The grouping key of the groupby at pipeline.py line 111: the triple of
employer_name, job_code and occupation_title. -/
abbrev GroupKey := Str × Str × Str

/-- The key of one row.  Pandas groupby drops a row whose key contains a
null, so a row with a null employer_name or occupation_title has no key. -/
def groupKey (r : MidRow) : Option GroupKey :=
  match r.employer_name, r.occupation_title with
  | some e, some t => some (e, r.job_code, t)
  | _, _ => none

/-- The rows that take part in the grouping, as key and wage pairs. -/
def keyedWages (rs : List MidRow) : List (GroupKey × ℚ) :=
  rs.filterMap (fun r => (groupKey r).map (fun k => (k, r.annual_wage)))

/-- The distinct elements of a list in order of first occurrence, with an
accumulator of elements already seen. -/
def firstOccAux {α : Type} [DecidableEq α] (seen : List α) : List α → List α
  | [] => []
  | k :: rest =>
    if k ∈ seen then firstOccAux seen rest
    else k :: firstOccAux (k :: seen) rest

/-- The distinct elements of a list in order of first occurrence: the
group keys of the pandas groupby, one per group. -/
def firstOccKeys {α : Type} [DecidableEq α] (l : List α) : List α :=
  firstOccAux [] l

/-- An output row of transform_h1b_data: the groupby with as_index=False
at pipeline.py lines 111-113 returns exactly the three key columns plus
the aggregated annual_wage, and the key columns are non-null. -/
structure H1BOut where
  employer_name : Str
  job_code : Str
  occupation_title : Str
  annual_wage : ℚ
deriving DecidableEq

/-- The wages of the group of one key. -/
def groupWages (rs : List MidRow) (k : GroupKey) : List ℚ :=
  ((keyedWages rs).filter (fun p => decide (p.1 = k))).map Prod.snd

/-- Arithmetic mean of a list of rationals. -/
def meanQ (ws : List ℚ) : ℚ := ws.sum / (ws.length : ℚ)

/-- The groupby/agg step of pipeline.py lines 111-113: one output row per
distinct key, whose annual_wage is the mean of the group.  The embedding
emits groups in first-occurrence order where pandas sorts the keys; every
verified property (key uniqueness, totality, group means, wage bounds) is
invariant under the output order. -/
def groupMean (rs : List MidRow) : List H1BOut :=
  (firstOccKeys ((keyedWages rs).map Prod.fst)).map (fun k =>
    { employer_name := k.1
      job_code := k.2.1
      occupation_title := k.2.2
      annual_wage := meanQ (groupWages rs k) })

/-- The key columns of an output row. -/
def outKey (g : H1BOut) : GroupKey := (g.employer_name, g.job_code, g.occupation_title)

/-- Embeds transform_h1b_data, pipeline.py lines 62-116: the stages in
source order, parameterized by the date-window bounds. -/
def transform_h1b_data (lo hi : Int) (rs : List H1BRow) : List H1BOut :=
  groupMean (stage_outlier (stage_wage (dropna_job_code (stage_codes
    (stage_date lo hi (stage_employer (stage_status rs)))))))

/-! ## The merge, pipeline.py lines 156-170

The inputs are the two transformed datasets: after the transforms every
job_code cell is a string and the employer and title columns of the
observation side are the non-null groupby keys.  A wage cell is an
Option rational: none models a cell whose pandas to_numeric coercion
fails (NaN), and NaN arithmetic propagates none. -/

/-- An observation-side row as selected at pipeline.py line 160. -/
structure H1BRec where
  job_code : Str
  occupation_title : Str
  annual_wage : Option ℚ
  employer_name : Str
deriving DecidableEq

/-- A reference-side row as selected at pipeline.py line 161. -/
structure OEWSRec where
  job_code : Str
  avg_local_wage : Option ℚ
deriving DecidableEq

/-- A row of the merged dataset, pipeline.py lines 164-167. -/
structure MergedRec where
  job_code : Str
  occupation_title : Str
  annual_wage : Option ℚ
  employer_name : Str
  avg_local_wage : Option ℚ
  wage_diff : Option ℚ
deriving DecidableEq

/-- NaN-propagating subtraction of two numerically coerced cells
(pipeline.py line 167): the difference is null unless both operands
coerce to numbers. -/
def subCoerced (a b : Option ℚ) : Option ℚ :=
  match a, b with
  | some x, some y => some (x - y)
  | _, _ => none

/-- One merged row built from a matching pair. -/
def mergeRow (h : H1BRec) (o2 : OEWSRec) : MergedRec :=
  { job_code := h.job_code
    occupation_title := h.occupation_title
    annual_wage := h.annual_wage
    employer_name := h.employer_name
    avg_local_wage := o2.avg_local_wage
    wage_diff := subCoerced h.annual_wage o2.avg_local_wage }

/-- Embeds merge_datasets, pipeline.py lines 156-170: the pandas inner
merge on job_code in left-row order, one output row per matching pair,
followed by the wage_diff column assignment. -/
def merge_datasets (hs : List H1BRec) (os : List OEWSRec) : List MergedRec :=
  hs.flatMap (fun h =>
    (os.filter (fun o2 => decide (o2.job_code = h.job_code))).map (mergeRow h))

/-! ## Column-name normalization (pipeline.py lines 65 and 121) -/

/-- The canonical form of one column name: lowercase, spaces to
underscores. -/
def canonColName (c : Str) : Str := replaceSpaces (lowerStr c)

/-- A tabular dataset as its header and cell rows, for the column-level
facts. -/
structure DataFrame where
  columns : List Str
  rows : List (List Str)
deriving DecidableEq

/-- What the column-normalization statement at pipeline.py lines 65 and
121 computes: every column name canonicalized, with no collision check
and no failure path. -/
def normalize_columns (cols : List Str) : List Str := cols.map canonColName

/-- The error the spec prescribes for a schema collision. -/
inductive SchemaError where
  | collision
deriving DecidableEq

/-- Whether two distinct input column names normalize to the same
canonical name. -/
def hasCollision (cols : List Str) : Bool :=
  cols.any (fun c1 => cols.any (fun c2 =>
    decide (c1 ≠ c2) && decide (canonColName c1 = canonColName c2)))

/-- Follows the spec words for the claim C7 comparison: column name to
lowercase with spaces to underscores, failing with a SchemaError when two
distinct input columns normalize to the same name. -/
def normalize_columns_spec (cols : List Str) : Except SchemaError (List Str) :=
  if hasCollision cols then Except.error SchemaError.collision
  else Except.ok (normalize_columns cols)

/-- The caller-visible state of the input dataset after a transform
returns: the column assignment at pipeline.py line 65 (and line 121)
mutates the caller's frame in place, and every later statement of the
transform rebinds the local name to a fresh frame, so the rename is the
whole caller-visible effect. -/
def transform_input_after (df : DataFrame) : DataFrame :=
  { df with columns := normalize_columns df.columns }

/-! ## Concrete demonstration rows -/

/-- A row that passes every observation-side filter for the window 0-100:
certified status with trailing space, a target employer, an in-window
date, a dotted code and a yearly wage of 104000. -/
def demoRow : H1BRow :=
  { case_status := some "certified ".data
    employer_name := some "MICROSOFT CORPORATION".data
    received_date := some 50
    soc_code := some "15-1132.00".data
    soc_title := some "Software Developers".data
    wage_rate_of_pay_from := 104000
    wage_unit_of_pay := some "Year".data }

/-- The group key produced by demoRow. -/
def demoKey : GroupKey :=
  ("MICROSOFT CORPORATION".data, "15-1132".data, "Software Developers".data)

/-- The aggregation input produced from demoRow with the window 0-100. -/
def demoMids : List MidRow :=
  stage_outlier (stage_wage (dropna_job_code (stage_codes
    (stage_date 0 100 (stage_employer (stage_status [demoRow]))))))

/-- Two aggregation input rows sharing employer and code but with two
distinct titles. -/
def twoTitleRows : List MidRow :=
  [{ employer_name := some "microsoft".data
     job_code := "15-1132".data
     occupation_title := some "Title A".data
     annual_wage := 100000 },
   { employer_name := some "microsoft".data
     job_code := "15-1132".data
     occupation_title := some "Title B".data
     annual_wage := 200000 }]

/-- A row identical to demoRow except that the raw soc_code cell is
null. -/
def nullCodeRow : H1BRow :=
  { demoRow with soc_code := none }

/-- A row identical to demoRow except that the annual wage is just above
the accepted range: 300001 per year. -/
def outlierRow : H1BRow :=
  { demoRow with wage_rate_of_pay_from := 300001, wage_unit_of_pay := some "year".data }

/-- A row identical to demoRow except that the employer cell is null. -/
def nullEmployerRow : H1BRow :=
  { demoRow with employer_name := none }

/-! ## Theorems -/

/-- C1 as stated expects the unit to be trimmed before matching; the source
only lower-cases it, so a recognized unit with surrounding whitespace is
treated as unrecognized. -/
theorem C1_counterexample :
    ¬ (trimStr (lowerStr "hour ".data) = "hour".data →
        standardize_wage 10 (some "hour ".data) = 10 * 2080) := by
  intro h
  have h2 := h (by decide)
  have h3 : standardize_wage 10 (some "hour ".data) = 10 := by
    norm_num +decide [standardize_wage]
  rw [h3] at h2
  norm_num at h2

/-- C1 amended: the unit is lower-cased but not trimmed before matching.
For a lower-cased match of hour, week, month the wage is scaled by 2080,
52, 12; a lower-cased match of year and every other unit (null and empty
included) returns the wage unchanged; the function is total, so it never
raises.  The concrete conversions claimed by the spec hold. -/
theorem C1_standardize_wage_amended (w : ℚ) (s : Str) :
    (lowerStr s = "hour".data → standardize_wage w (some s) = w * 2080) ∧
    (lowerStr s = "week".data → standardize_wage w (some s) = w * 52) ∧
    (lowerStr s = "month".data → standardize_wage w (some s) = w * 12) ∧
    (lowerStr s = "year".data → standardize_wage w (some s) = w) ∧
    (lowerStr s ≠ "hour".data → lowerStr s ≠ "week".data →
      lowerStr s ≠ "month".data → standardize_wage w (some s) = w) ∧
    standardize_wage w none = w ∧
    standardize_wage 10 (some "hour".data) = 20800 ∧
    standardize_wage 1000 (some "week".data) = 52000 ∧
    standardize_wage 5000 (some "month".data) = 60000 ∧
    standardize_wage 75000 (some "fortnight".data) = 75000 := by
  refine ⟨?_, ?_, ?_, ?_, ?_, ?_, ?_, ?_, ?_, ?_⟩
  · intro h; simp +decide [standardize_wage, h]
  · intro h; simp +decide [standardize_wage, h]
  · intro h; simp +decide [standardize_wage, h]
  · intro h; simp +decide [standardize_wage, h]
  · intro h1 h2 h3; simp [standardize_wage, h1, h2, h3]
  · simp [standardize_wage]
  · norm_num +decide [standardize_wage]
  · norm_num +decide [standardize_wage]
  · norm_num +decide [standardize_wage]
  · norm_num +decide [standardize_wage]

/-- Witness for C1 amended at a concrete input: the unit Hour lower-cases
to hour and converts an hourly wage of 10 to 20800. -/
theorem C1_standardize_wage_amended_witness :
    standardize_wage 10 (some "Hour".data) = 10 * 2080 :=
  (C1_standardize_wage_amended 10 "Hour".data).1 (by decide)

/-! ### Helper lemmas -/

theorem mem_firstOccAux {α : Type} [DecidableEq α] (a : α) (l : List α) :
    ∀ seen, a ∈ firstOccAux seen l ↔ a ∈ l ∧ a ∉ seen := by
  induction l with
  | nil => intro seen; simp [firstOccAux]
  | cons k rest ih =>
    intro seen
    simp only [firstOccAux]
    by_cases hk : k ∈ seen
    · rw [if_pos hk, ih seen]
      constructor
      · exact fun h => ⟨List.mem_cons_of_mem _ h.1, h.2⟩
      · rintro ⟨h1, h2⟩
        rcases List.mem_cons.mp h1 with rfl | h1
        · exact absurd hk h2
        · exact ⟨h1, h2⟩
    · rw [if_neg hk]
      simp only [List.mem_cons, ih (k :: seen)]
      by_cases hak : a = k
      · subst hak; simp [hk]
      · simp [hak]

theorem nodup_firstOccAux {α : Type} [DecidableEq α] (l : List α) :
    ∀ seen, (firstOccAux seen l).Nodup := by
  induction l with
  | nil => intro seen; simp [firstOccAux]
  | cons k rest ih =>
    intro seen
    simp only [firstOccAux]
    by_cases hk : k ∈ seen
    · rw [if_pos hk]; exact ih seen
    · rw [if_neg hk]
      refine List.nodup_cons.mpr ⟨fun hmem => ?_, ih (k :: seen)⟩
      rw [mem_firstOccAux] at hmem
      exact hmem.2 (List.mem_cons_self k seen)

theorem mem_firstOccKeys {α : Type} [DecidableEq α] (a : α) (l : List α) :
    a ∈ firstOccKeys l ↔ a ∈ l := by
  rw [firstOccKeys, mem_firstOccAux]
  simp

theorem nodup_firstOccKeys {α : Type} [DecidableEq α] (l : List α) :
    (firstOccKeys l).Nodup := nodup_firstOccAux l []

theorem statusKeep_iff (v : Option Str) :
    statusKeep v = true ↔
      ∃ s, v = some s ∧ upperStr (trimStr s) = "CERTIFIED".data := by
  cases v <;> simp [statusKeep]

theorem groupKey_fields (m : MidRow) (k : GroupKey) (h : groupKey m = some k) :
    m.employer_name = some k.1 ∧ m.job_code = k.2.1 ∧
      m.occupation_title = some k.2.2 := by
  unfold groupKey at h
  rcases he : m.employer_name with _ | e
  · rw [he] at h; simp at h
  · rcases ht : m.occupation_title with _ | t
    · rw [he, ht] at h; simp at h
    · rw [he, ht] at h
      simp only [Option.some.injEq] at h
      rw [← h]
      exact ⟨rfl, rfl, rfl⟩

theorem mem_keyedWages (rs : List MidRow) (p : GroupKey × ℚ) :
    p ∈ keyedWages rs ↔
      ∃ m ∈ rs, groupKey m = some p.1 ∧ m.annual_wage = p.2 := by
  simp only [keyedWages, List.mem_filterMap, Option.map_eq_some']
  constructor
  · rintro ⟨m, hm, k, hk, hp⟩
    subst hp
    exact ⟨m, hm, hk, rfl⟩
  · rintro ⟨m, hm, hk, hw⟩
    refine ⟨m, hm, p.1, hk, ?_⟩
    rw [hw]

theorem mem_groupMean (rs : List MidRow) (g : H1BOut) :
    g ∈ groupMean rs ↔
      ∃ k ∈ firstOccKeys ((keyedWages rs).map Prod.fst),
        H1BOut.mk k.1 k.2.1 k.2.2 (meanQ (groupWages rs k)) = g := by
  simp [groupMean]

theorem groupMean_keys (rs : List MidRow) :
    (groupMean rs).map outKey = firstOccKeys ((keyedWages rs).map Prod.fst) := by
  rw [groupMean, List.map_map]
  have : (outKey ∘ fun k : GroupKey =>
      H1BOut.mk k.1 k.2.1 k.2.2 (meanQ (groupWages rs k))) = id := by
    funext k
    rfl
  rw [this, List.map_id]

theorem groupWages_ne_nil (rs : List MidRow) (k : GroupKey)
    (h : k ∈ (keyedWages rs).map Prod.fst) : groupWages rs k ≠ [] := by
  rcases List.mem_map.mp h with ⟨p, hp, rfl⟩
  have : p.2 ∈ groupWages rs p.1 := by
    rw [groupWages]
    exact List.mem_map.mpr ⟨p, List.mem_filter.mpr ⟨hp, by simp⟩, rfl⟩
  exact List.ne_nil_of_mem this

theorem mem_groupWages (rs : List MidRow) (k : GroupKey) (w : ℚ)
    (h : w ∈ groupWages rs k) : ∃ m ∈ rs, m.annual_wage = w := by
  rw [groupWages] at h
  rcases List.mem_map.mp h with ⟨p, hp, rfl⟩
  rcases (mem_keyedWages rs p).mp (List.mem_filter.mp hp).1 with ⟨m, hm, _, hw⟩
  exact ⟨m, hm, hw⟩

theorem stage_outlier_range (l : List MidRow) (m : MidRow) (h : m ∈ stage_outlier l) :
    20000 ≤ m.annual_wage ∧ m.annual_wage ≤ 300000 := by
  have := (List.mem_filter.mp h).2
  simpa [outlierKeep] using this

theorem meanQ_between (ws : List ℚ) (hne : ws ≠ []) (lo hi : ℚ)
    (h : ∀ w ∈ ws, lo ≤ w ∧ w ≤ hi) : lo ≤ meanQ ws ∧ meanQ ws ≤ hi := by
  have hlen : 0 < (ws.length : ℚ) := by
    exact_mod_cast List.length_pos.mpr hne
  have hsum_le : ws.sum ≤ (ws.length : ℚ) * hi := by
    have := List.sum_le_card_nsmul ws hi (fun x hx => (h x hx).2)
    simpa [nsmul_eq_mul] using this
  have hle_sum : (ws.length : ℚ) * lo ≤ ws.sum := by
    have := List.card_nsmul_le_sum ws lo (fun x hx => (h x hx).1)
    simpa [nsmul_eq_mul] using this
  constructor
  · rw [meanQ, le_div_iff₀ hlen]
    calc lo * ws.length = ws.length * lo := mul_comm _ _
    _ ≤ ws.sum := hle_sum
  · rw [meanQ, div_le_iff₀ hlen]
    calc ws.sum ≤ ws.length * hi := hsum_le
    _ = hi * ws.length := mul_comm _ _

theorem mid_employer_from_input (lo hi : Int) (rs : List H1BRow) (m : MidRow)
    (hm : m ∈ stage_outlier (stage_wage (dropna_job_code (stage_codes
      (stage_date lo hi (stage_employer (stage_status rs))))))) :
    ∃ r ∈ rs, r.employer_name = m.employer_name := by
  have h1 : m ∈ stage_wage (dropna_job_code (stage_codes
      (stage_date lo hi (stage_employer (stage_status rs))))) :=
    List.mem_of_mem_filter hm
  rcases List.mem_map.mp h1 with ⟨c, hc, rfl⟩
  rcases List.mem_map.mp hc with ⟨r, hr, rfl⟩
  refine ⟨r, ?_, rfl⟩
  exact List.mem_of_mem_filter (List.mem_of_mem_filter (List.mem_of_mem_filter hr))

/-! ### Claim theorems -/

/-- C8, confirmed: the status stage keeps exactly the rows whose status
cell, stripped and upper-cased, equals CERTIFIED; a null status is
excluded; the three scenario inputs behave as the spec states. -/
theorem C8_status_filter (rs : List H1BRow) (r : H1BRow) :
    (r ∈ stage_status rs ↔
      r ∈ rs ∧ ∃ s, r.case_status = some s ∧
        upperStr (trimStr s) = "CERTIFIED".data) ∧
    statusKeep (some "certified ".data) = true ∧
    statusKeep (some "DENIED".data) = false ∧
    statusKeep none = false := by
  refine ⟨?_, by decide, by decide, by decide⟩
  simp [stage_status, List.mem_filter, statusKeep_iff]

/-- Witness for C8 at a concrete input: the single certified row is
retained by the status stage. -/
theorem C8_status_filter_witness : demoRow ∈ stage_status [demoRow] :=
  (C8_status_filter [demoRow] demoRow).1.mpr
    ⟨List.mem_singleton.mpr rfl, "certified ".data, rfl, by decide⟩

/-- C4, code bug: the canonicalization of the two spec scenarios holds,
but because astype(str) runs before the dropna, a null raw code survives
as the literal string nan and a whitespace-only code survives as the
empty string; the dropna of pipeline.py line 87 is the identity, so such
rows are kept, contradicting the spec and the comment above the dropna. -/
theorem C4_null_code_kept :
    canonCode (some "15-1132.00".data) = "15-1132".data ∧
    canonCode (some "  29-1021.01 ".data) = "29-1021".data ∧
    canonCode none = "nan".data ∧
    canonCode (some "   ".data) = [] ∧
    dropna_job_code (stage_codes [nullCodeRow]) = stage_codes [nullCodeRow] ∧
    (dropna_job_code (stage_codes [nullCodeRow])).map CodedRow.job_code
      = ["nan".data] := by
  refine ⟨by decide, by decide, by decide, by decide, rfl, by decide⟩

theorem groupMean_outlier_range (l : List MidRow) (g : H1BOut)
    (hg : g ∈ groupMean (stage_outlier l)) :
    20000 ≤ g.annual_wage ∧ g.annual_wage ≤ 300000 := by
  rcases (mem_groupMean _ g).mp hg with ⟨k, hk, hgk⟩
  have hkm : k ∈ (keyedWages (stage_outlier l)).map Prod.fst :=
    (mem_firstOccKeys _ _).mp hk
  have hne := groupWages_ne_nil _ k hkm
  have hb : ∀ w ∈ groupWages (stage_outlier l) k, 20000 ≤ w ∧ w ≤ 300000 := by
    intro w hw
    rcases mem_groupWages _ k w hw with ⟨m, hm, hmw⟩
    rw [← hmw]
    exact stage_outlier_range l m hm
  have hmean := meanQ_between _ hne 20000 300000 hb
  have hwage : g.annual_wage = meanQ (groupWages (stage_outlier l) k) := by
    rw [← hgk]
  rw [hwage]
  exact hmean

theorem demo_mem_transform :
    H1BOut.mk demoKey.1 demoKey.2.1 demoKey.2.2
        (meanQ (groupWages demoMids demoKey)) ∈
      transform_h1b_data 0 100 [demoRow] := by
  have h : transform_h1b_data 0 100 [demoRow] =
      [H1BOut.mk demoKey.1 demoKey.2.1 demoKey.2.2
        (meanQ (groupWages demoMids demoKey))] := rfl
  rw [h]
  exact List.mem_singleton.mpr rfl

/-- C3, counterexample: the source groups by the triple employer_name,
job_code, occupation_title, so two input rows sharing the claimed key
(employer_name, occupation_code) but holding two distinct titles yield
two output records with the same claimed key, refuting the claimed
one-record-per-key uniqueness. -/
theorem C3_counterexample :
    ((groupMean twoTitleRows).map (fun g => (g.employer_name, g.job_code))) =
      [("microsoft".data, "15-1132".data), ("microsoft".data, "15-1132".data)] ∧
    ¬ ((groupMean twoTitleRows).map
        (fun g => (g.employer_name, g.job_code))).Nodup := by
  refine ⟨by decide, by decide⟩

/-- C3, amended: with the key the source actually groups by — the triple
(employer_name, occupation_code, occupation_title) — the mean-policy
resolver is total and unique: output keys are pairwise distinct, every
input row that carries a key (both grouped cells non-null, as pandas
groupby drops null-keyed rows) is represented, and each output wage is
the arithmetic mean of its group, exactly, hence within any positive
tolerance. -/
theorem C3_mean_dedup_amended (rs : List MidRow) :
    ((groupMean rs).map outKey).Nodup ∧
    (∀ m ∈ rs, ∀ k, groupKey m = some k → k ∈ (groupMean rs).map outKey) ∧
    (∀ g ∈ groupMean rs, g.annual_wage = meanQ (groupWages rs (outKey g))) := by
  refine ⟨?_, ?_, ?_⟩
  · rw [groupMean_keys]
    exact nodup_firstOccKeys _
  · intro m hm k hk
    rw [groupMean_keys, mem_firstOccKeys]
    exact List.mem_map.mpr
      ⟨(k, m.annual_wage), (mem_keyedWages rs (k, m.annual_wage)).mpr ⟨m, hm, hk, rfl⟩, rfl⟩
  · intro g hg
    rcases (mem_groupMean rs g).mp hg with ⟨k, _, hgk⟩
    rw [← hgk]
    rfl

/-- Witness for C3 amended at a concrete input: the key of the single
aggregation input row appears among the output keys. -/
theorem C3_mean_dedup_amended_witness :
    ("microsoft".data, "15-1132".data, "Title A".data) ∈
      (groupMean [MidRow.mk (some "microsoft".data) "15-1132".data
        (some "Title A".data) 100000]).map outKey :=
  (C3_mean_dedup_amended [MidRow.mk (some "microsoft".data) "15-1132".data
      (some "Title A".data) 100000]).2.1
    (MidRow.mk (some "microsoft".data) "15-1132".data
      (some "Title A".data) 100000)
    (List.mem_singleton.mpr rfl)
    ("microsoft".data, "15-1132".data, "Title A".data) rfl

/-- C6, confirmed: every record of the transform output carries an
annual_wage inside [20000, 300000] — the outlier filter bounds every
group member and the group mean stays inside the bounds — and a row
annualizing to 300001 is dropped entirely rather than clamped. -/
theorem C6_wage_range (lo hi : Int) (rs : List H1BRow) :
    (∀ g ∈ transform_h1b_data lo hi rs,
      20000 ≤ g.annual_wage ∧ g.annual_wage ≤ 300000) ∧
    transform_h1b_data 0 100 [outlierRow] = [] := by
  refine ⟨?_, by decide⟩
  intro g hg
  exact groupMean_outlier_range _ g hg

/-- Witness for C6 at a concrete input: the single demo row passes all
filters and its aggregated wage lies in the accepted range. -/
theorem C6_wage_range_witness :
    20000 ≤ meanQ (groupWages demoMids demoKey) ∧
      meanQ (groupWages demoMids demoKey) ≤ 300000 :=
  (C6_wage_range 0 100 [demoRow]).1
    (H1BOut.mk demoKey.1 demoKey.2.1 demoKey.2.2
      (meanQ (groupWages demoMids demoKey)))
    demo_mem_transform

/-- C10, confirmed: the employer-matching stage is a total function that
sends a null employer cell to a non-match (na=False), so such rows are
excluded, every row it keeps has a non-null employer cell, and every
record of the transform output carries an employer name that some input
row held non-null. -/
theorem C10_null_employer_excluded (lo hi : Int) (rs : List H1BRow) :
    (∀ r ∈ stage_employer rs, r.employer_name.isSome) ∧
    (∀ r, r.employer_name = none → r ∉ stage_employer rs) ∧
    stage_employer [nullEmployerRow] = [] ∧
    (∀ g ∈ transform_h1b_data lo hi rs,
      ∃ r ∈ rs, r.employer_name = some g.employer_name) := by
  refine ⟨?_, ?_, by decide, ?_⟩
  · intro r hr
    have hmatch := (List.mem_filter.mp hr).2
    rcases he : r.employer_name with _ | e
    · rw [he] at hmatch
      simp [employerMatch] at hmatch
    · rfl
  · intro r hnone hr
    have hmatch := (List.mem_filter.mp hr).2
    rw [hnone] at hmatch
    simp [employerMatch] at hmatch
  · intro g hg
    rw [transform_h1b_data] at hg
    rcases (mem_groupMean _ g).mp hg with ⟨k, hk, hgk⟩
    have hkm := (mem_firstOccKeys _ _).mp hk
    rcases List.mem_map.mp hkm with ⟨p, hp, hpk⟩
    rcases (mem_keyedWages _ p).mp hp with ⟨m, hm, hmk, _⟩
    rcases mid_employer_from_input lo hi rs m hm with ⟨r, hr, hre⟩
    refine ⟨r, hr, ?_⟩
    have hfields := groupKey_fields m p.1 hmk
    rw [hre, hfields.1, hpk, ← hgk]

/-- Witness for C10 at a concrete input: the demo output record's
employer name is held by the demo input row. -/
theorem C10_null_employer_excluded_witness :
    ∃ r ∈ [demoRow], r.employer_name = some "MICROSOFT CORPORATION".data :=
  (C10_null_employer_excluded 0 100 [demoRow]).2.2.2
    (H1BOut.mk demoKey.1 demoKey.2.1 demoKey.2.2
      (meanQ (groupWages demoMids demoKey)))
    demo_mem_transform

theorem mem_merge (hs : List H1BRec) (os : List OEWSRec) (m : MergedRec) :
    m ∈ merge_datasets hs os ↔
      ∃ h ∈ hs, ∃ o2 ∈ os, o2.job_code = h.job_code ∧ m = mergeRow h o2 := by
  simp only [merge_datasets, List.mem_flatMap, List.mem_map, List.mem_filter,
    decide_eq_true_eq]
  constructor
  · rintro ⟨h, hh, o2, ⟨ho, hoc⟩, rfl⟩
    exact ⟨h, hh, o2, ho, hoc, rfl⟩
  · rintro ⟨h, hh, o2, ho, hoc, rfl⟩
    exact ⟨h, hh, o2, ⟨ho, hoc⟩, rfl⟩

theorem merge_code_mem (hs : List H1BRec) (os : List OEWSRec) (m : MergedRec)
    (hm : m ∈ merge_datasets hs os) :
    m.job_code ∈ hs.map H1BRec.job_code ∧
      m.job_code ∈ os.map OEWSRec.job_code := by
  rcases (mem_merge hs os m).mp hm with ⟨h, hh, o2, ho, hoc, rfl⟩
  exact ⟨List.mem_map.mpr ⟨h, hh, rfl⟩, List.mem_map.mpr ⟨o2, ho, hoc⟩⟩

theorem nodup_of_length_le_one {α : Type} (l : List α) (h : l.length ≤ 1) :
    l.Nodup := by
  match l with
  | [] => exact List.nodup_nil
  | [a] => exact List.nodup_singleton a
  | a :: b :: r => simp at h

theorem filter_code_length_le_one (os : List OEWSRec) (c : Str)
    (h : (os.map OEWSRec.job_code).Nodup) :
    (os.filter (fun o2 => decide (o2.job_code = c))).length ≤ 1 := by
  induction os with
  | nil => simp
  | cons o2 rest ih =>
    rw [List.map_cons, List.nodup_cons] at h
    by_cases hc : o2.job_code = c
    · rw [List.filter_cons_of_pos (by simp [hc])]
      have hrest : rest.filter (fun x => decide (x.job_code = c)) = [] := by
        rw [List.filter_eq_nil_iff]
        intro x hx
        simp only [decide_eq_true_eq]
        intro hxc
        exact h.1 (List.mem_map.mpr ⟨x, hx, by rw [hxc, hc]⟩)
      rw [hrest]
      simp
    · rw [List.filter_cons_of_neg (by simp [hc])]
      exact ih h.2

theorem merge_nodup (hs : List H1BRec) (os : List OEWSRec)
    (hu : (hs.map H1BRec.job_code).Nodup)
    (ou : (os.map OEWSRec.job_code).Nodup) :
    ((merge_datasets hs os).map MergedRec.job_code).Nodup := by
  induction hs with
  | nil => simp [merge_datasets]
  | cons h t ih =>
    rw [List.map_cons, List.nodup_cons] at hu
    have hmerge : merge_datasets (h :: t) os =
        ((os.filter (fun o2 => decide (o2.job_code = h.job_code))).map
          (mergeRow h)) ++ merge_datasets t os := rfl
    rw [hmerge, List.map_append]
    refine List.Nodup.append ?_ (ih hu.2) ?_
    · refine nodup_of_length_le_one _ ?_
      rw [List.length_map, List.length_map]
      exact filter_code_length_le_one os h.job_code ou
    · intro c hc1 hc2
      rcases List.mem_map.mp hc1 with ⟨m1, hm1, rfl⟩
      rcases List.mem_map.mp hm1 with ⟨o2, _, rfl⟩
      rcases List.mem_map.mp hc2 with ⟨m2, hm2, hcode⟩
      have := (merge_code_mem t os m2 hm2).1
      rw [hcode] at this
      exact hu.1 this

/-- C2, counterexample: the merge produces one row per matched pair, not
one row per matched code — two observation rows with the same code and
one matching reference row yield two output rows carrying that code. -/
theorem C2_counterexample :
    ((merge_datasets
        [H1BRec.mk "15-1132".data "T".data (some 100000) "microsoft".data,
         H1BRec.mk "15-1132".data "T".data (some 120000) "google llc".data]
        [OEWSRec.mk "15-1132".data (some 95000)]).map MergedRec.job_code) =
      ["15-1132".data, "15-1132".data] ∧
    ¬ ((merge_datasets
        [H1BRec.mk "15-1132".data "T".data (some 100000) "microsoft".data,
         H1BRec.mk "15-1132".data "T".data (some 120000) "google llc".data]
        [OEWSRec.mk "15-1132".data (some 95000)]).map
          MergedRec.job_code).Nodup := by
  refine ⟨by decide, by decide⟩

/-- C2, amended: the merge is a true inner join producing exactly one
output row per matched (observation row, reference row) pair: a row is in
the output exactly when it is the merge of such a matching pair, every
output code occurs on both input sides (so unmatched rows of either side
are dropped and the output code set is inside the intersection), no
output row has a null code — the embedded code column is non-nullable,
as the transforms produce it via astype(str) — and one row per matched
code is recovered exactly when both inputs are key-unique on the code. -/
theorem C2_inner_join_amended (hs : List H1BRec) (os : List OEWSRec) :
    (∀ m, m ∈ merge_datasets hs os ↔
      ∃ h ∈ hs, ∃ o2 ∈ os, o2.job_code = h.job_code ∧ m = mergeRow h o2) ∧
    (∀ m ∈ merge_datasets hs os,
      m.job_code ∈ hs.map H1BRec.job_code ∧
        m.job_code ∈ os.map OEWSRec.job_code) ∧
    ((hs.map H1BRec.job_code).Nodup → (os.map OEWSRec.job_code).Nodup →
      ((merge_datasets hs os).map MergedRec.job_code).Nodup) :=
  ⟨mem_merge hs os, merge_code_mem hs os, merge_nodup hs os⟩

/-- Witness for C2 amended at a concrete input: the matched pair of the
two singleton inputs appears in the merge output. -/
theorem C2_inner_join_amended_witness :
    mergeRow (H1BRec.mk "15-1132".data "T".data (some 100000) "microsoft".data)
        (OEWSRec.mk "15-1132".data (some 95000)) ∈
      merge_datasets
        [H1BRec.mk "15-1132".data "T".data (some 100000) "microsoft".data]
        [OEWSRec.mk "15-1132".data (some 95000)] :=
  ((C2_inner_join_amended
      [H1BRec.mk "15-1132".data "T".data (some 100000) "microsoft".data]
      [OEWSRec.mk "15-1132".data (some 95000)]).1 _).mpr
    ⟨H1BRec.mk "15-1132".data "T".data (some 100000) "microsoft".data,
      List.mem_singleton.mpr rfl,
      OEWSRec.mk "15-1132".data (some 95000),
      List.mem_singleton.mpr rfl, rfl, rfl⟩

/-- C5, confirmed: in every merged row the wage_diff cell is the
difference of the two wage cells when both coerce to numbers — exact in
the rational embedding, hence within any positive tolerance — and is
null, not an error, when either operand fails numeric coercion. -/
theorem C5_wage_diff (hs : List H1BRec) (os : List OEWSRec) :
    ∀ m ∈ merge_datasets hs os,
      (∀ a b, m.annual_wage = some a → m.avg_local_wage = some b →
        m.wage_diff = some (a - b)) ∧
      ((m.annual_wage = none ∨ m.avg_local_wage = none) →
        m.wage_diff = none) := by
  intro m hm
  rcases (mem_merge hs os m).mp hm with ⟨h, hh, o2, ho, hoc, rfl⟩
  constructor
  · intro a b ha hb
    have hx : h.annual_wage = some a := ha
    have hy : o2.avg_local_wage = some b := hb
    show subCoerced h.annual_wage o2.avg_local_wage = some (a - b)
    rw [hx, hy]
    rfl
  · rintro (ha | hb)
    · have hx : h.annual_wage = none := ha
      show subCoerced h.annual_wage o2.avg_local_wage = none
      rw [hx]
      cases o2.avg_local_wage <;> rfl
    · have hy : o2.avg_local_wage = none := hb
      show subCoerced h.annual_wage o2.avg_local_wage = none
      rw [hy]
      cases h.annual_wage <;> rfl

/-- Witness for C5 at a concrete input: both wages coerce, and the
difference cell holds their difference. -/
theorem C5_wage_diff_witness :
    (mergeRow (H1BRec.mk "15-1132".data "T".data (some 100000) "microsoft".data)
        (OEWSRec.mk "15-1132".data (some 95000))).wage_diff =
      some (100000 - 95000) :=
  ((C5_wage_diff
      [H1BRec.mk "15-1132".data "T".data (some 100000) "microsoft".data]
      [OEWSRec.mk "15-1132".data (some 95000)] _
      (List.mem_singleton.mpr rfl)).1) 100000 95000 rfl rfl

/-- C7, counterexample: two distinct input column names that normalize to
the same canonical name do not make the step fail — the source has no
collision check and no error path; both columns are returned under the
same normalized name. -/
theorem C7_counterexample :
    "SOC Code".data ≠ "soc code".data ∧
    canonColName "SOC Code".data = canonColName "soc code".data ∧
    normalize_columns ["SOC Code".data, "soc code".data] =
      ["soc_code".data, "soc_code".data] := by
  refine ⟨by decide, by decide, by decide⟩

/-- C7, amended: the schema normalization of the source never fails and
returns every column name canonicalized (lowercase, spaces to
underscores), even in the presence of a collision; on collision-free
inputs it agrees with the collision-checking normalizer the spec
prescribes. -/
theorem C7_rename_amended (cols : List Str) :
    normalize_columns cols = cols.map canonColName ∧
    (hasCollision cols = false →
      normalize_columns_spec cols = Except.ok (normalize_columns cols)) ∧
    transform_input_after (DataFrame.mk cols []) =
      DataFrame.mk (normalize_columns cols) [] := by
  refine ⟨rfl, ?_, rfl⟩
  intro h
  rw [normalize_columns_spec, h]
  rfl

/-- Witness for C7 amended at a concrete collision-free input: the
spec-prescribed normalizer succeeds with the canonical names the code
returns. -/
theorem C7_rename_amended_witness :
    normalize_columns_spec ["SOC Code".data, "Employer Name".data] =
      Except.ok ["soc_code".data, "employer_name".data] := by
  have h := (C7_rename_amended ["SOC Code".data, "Employer Name".data]).2.1
    (by decide)
  rw [h]
  simp only [Except.ok.injEq]
  decide

/-- C9, counterexample: the transforms mutate the caller's input frame —
the column assignment at pipeline.py lines 65 and 121 renames the input's
columns in place, so after a transform the caller's input frame differs
from what was passed in. -/
theorem C9_counterexample :
    transform_input_after (DataFrame.mk ["CASE STATUS".data] []) ≠
      DataFrame.mk ["CASE STATUS".data] [] := by
  decide

/-- C9, amended: a transform leaves the caller's cell data untouched —
every statement after the column assignment rebinds the local name to a
fresh frame — but the column-name normalization is applied to the input
frame in place, so the caller's input columns end up canonically renamed;
the input is returned unchanged exactly when its columns are already
canonical. -/
theorem C9_no_mutation_amended (df : DataFrame) :
    (transform_input_after df).rows = df.rows ∧
    (transform_input_after df).columns = df.columns.map canonColName ∧
    (df.columns.map canonColName = df.columns →
      transform_input_after df = df) := by
  refine ⟨rfl, rfl, ?_⟩
  intro h
  show DataFrame.mk (df.columns.map canonColName) df.rows = df
  rw [h]

/-- Witness for C9 amended at a concrete input: a frame whose columns are
already canonical is left untouched. -/
theorem C9_no_mutation_amended_witness :
    transform_input_after (DataFrame.mk ["case_status".data] []) =
      DataFrame.mk ["case_status".data] [] :=
  (C9_no_mutation_amended (DataFrame.mk ["case_status".data] [])).2.2
    (by decide)
